import Mathlib

/-!
Verification of the analytics core of the Pro-Football live-match dashboard.

The development shallowly embeds the analytics pipeline of
`src/components/Dashboard.tsx` and `src/services/api.ts`:

* the Stats Parser (`parseStats` in `api.ts`),
* the odds-history processing inside the main fetch effect,
* the Trend Colorizer (`marketChartData` / `homeMarketChartData` memos),
* the Pattern Detector (`runPatternDetection`),
* the Shot-Event Deriver (the `shotEvents` effect), and
* the persistence-load effect.

JavaScript numbers are modelled as `Option ℚ` (with `none` standing for
`NaN`, which propagates through arithmetic and makes every comparison
false), JavaScript integer results of `parseInt` as `Option Int`.
`Array.prototype.sort` (stable in ECMAScript) is modelled by
`List.insertionSort`, which is stable for the comparator orders used here.
-/

namespace ProFootball

/-- Characters treated as whitespace by the JS string-to-number routines. -/
def jsWhitespace (c : Char) : Bool :=
  c == ' ' || c == '\t' || c == '\n' || c == '\r'

/-- Accumulate a list of decimal digit characters into a natural number. -/
def digitsToNat (ds : List Char) : Nat :=
  ds.foldl (fun a c => a * 10 + (c.toNat - '0'.toNat)) 0

/-- Model of JavaScript `parseInt(s)` (radix 10, no hex prefix): skip
whitespace, optional sign, read leading decimal digits ignoring any
trailing garbage; `none` models the `NaN` result when no digit is read. -/
def jsParseInt (s : String) : Option Int :=
  let cs := s.toList.dropWhile jsWhitespace
  let sgn : Int := match cs with | '-' :: _ => -1 | _ => 1
  let cs1 : List Char := match cs with
    | '-' :: r => r
    | '+' :: r => r
    | _ => cs
  let ds := cs1.takeWhile Char.isDigit
  if ds.isEmpty then none else some (sgn * (digitsToNat ds : Int))

/-- The discrete outcome of scanning a decimal numeral: sign, integer
digits, fractional digits, number of fractional digits, and whether at
least one digit was read at all. -/
structure FloatParts where
  neg : Bool
  intPart : Nat
  fracPart : Nat
  fracLen : Nat
  ok : Bool
deriving DecidableEq, Repr

/-- Character-level scan of JavaScript `parseFloat`: skip whitespace,
optional sign, integer digits, optional `.` and fractional digits;
trailing garbage is ignored. -/
def floatScan (s : String) : FloatParts :=
  let cs := s.toList.dropWhile jsWhitespace
  let neg : Bool := match cs with | '-' :: _ => true | _ => false
  let cs1 : List Char := match cs with
    | '-' :: r => r
    | '+' :: r => r
    | _ => cs
  let ds := cs1.takeWhile Char.isDigit
  let rest := cs1.drop ds.length
  let fs : List Char := match rest with
    | '.' :: r2 => r2.takeWhile Char.isDigit
    | _ => []
  FloatParts.mk neg (digitsToNat ds) (digitsToNat fs) fs.length (!(ds.isEmpty && fs.isEmpty))

/-- Model of JavaScript `parseFloat(s)` on plain decimal numerals (the
shape produced by the odds feed); `none` models `NaN` when no digit is
read.  (Exponent notation is not needed by the feed and is not
modelled.) -/
def jsParseFloat (s : String) : Option ℚ :=
  let p := floatScan s
  if p.ok then
    some ((if p.neg then (-1 : ℚ) else 1) * ((p.intPart : ℚ) + (p.fracPart : ℚ) / (10 : ℚ) ^ p.fracLen))
  else none

/-! ## Stats Parser (`parseStats`, `src/services/api.ts` lines 163-181) -/

/-- One element of a raw stats pair: `parseInt(arr[i] || '0')`.  The
empty string is falsy in JS and is replaced by `"0"`; any other string
goes to `parseInt` directly, so a non-numeric string yields `NaN`
(modelled by `none`). -/
def parseElem (s : String) : Option Int :=
  jsParseInt (if s = "" then "0" else s)

/-- The inner `parse(key)` closure of `parseStats`: look the key up in the
(possibly absent) raw stats mapping; if the value is present and has
exactly two elements, parse both, otherwise return `[0, 0]`. -/
def parsePairJs (stats : Option (List (String × List String))) (key : String) :
    Option Int × Option Int :=
  match stats with
  | none => (some 0, some 0)
  | some m =>
    match m.lookup key with
    | some [a, b] => (parseElem a, parseElem b)
    | _ => (some 0, some 0)

/-- The record shape returned by `parseStats` (JS numbers, possibly NaN). -/
structure ProcessedStatsJs where
  attacks : Option Int × Option Int
  dangerous_attacks : Option Int × Option Int
  on_target : Option Int × Option Int
  off_target : Option Int × Option Int
  corners : Option Int × Option Int
  yellowcards : Option Int × Option Int
  redcards : Option Int × Option Int
deriving DecidableEq, Repr

/-- `parseStats` from `src/services/api.ts`: defensively parse the raw
per-side counter pairs for each recognized key. -/
def parseStats (stats : Option (List (String × List String))) : ProcessedStatsJs :=
  { attacks := parsePairJs stats "attacks"
  , dangerous_attacks := parsePairJs stats "dangerous_attacks"
  , on_target := parsePairJs stats "on_target"
  , off_target := parsePairJs stats "off_target"
  , corners := parsePairJs stats "corners"
  , yellowcards := parsePairJs stats "yellowcards"
  , redcards := parsePairJs stats "redcards" }

/-! ## Numeric stats snapshots and the API scorer (`Dashboard.tsx`) -/

/-- A well-formed stats snapshot as stored in `statsHistory` (the shape of
`ProcessedStats` once every pair parsed to actual numbers).  Pairs are
`(home, away)` integer counters. -/
structure ProcessedStats where
  attacks : Int × Int := (0, 0)
  dangerous_attacks : Int × Int := (0, 0)
  on_target : Int × Int := (0, 0)
  off_target : Int × Int := (0, 0)
  corners : Int × Int := (0, 0)
  yellowcards : Int × Int := (0, 0)
  redcards : Int × Int := (0, 0)
deriving DecidableEq, Repr

/-- Index a `(home, away)` pair by JS side index 0 or 1. -/
def sideVal (p : Int × Int) (i : Fin 2) : Int :=
  if i = 0 then p.1 else p.2

/-- `calculateAPIScore` (`Dashboard.tsx` lines 72-80): pressure score of
one side; an absent snapshot scores 0. -/
def calculateAPIScore (stats : Option ProcessedStats) (i : Fin 2) : ℚ :=
  match stats with
  | none => 0
  | some s =>
    let onTarget : ℚ := (sideVal s.on_target i : Int)
    let offTarget : ℚ := (sideVal s.off_target i : Int)
    let shots := onTarget + offTarget
    let corners : ℚ := (sideVal s.corners i : Int)
    let dangerous : ℚ := (sideVal s.dangerous_attacks i : Int)
    shots * 1.0 + onTarget * 3.0 + corners * 0.7 + dangerous * 0.1

/-- The `statsHistory` record, modelled as its list of key/value entries
(a JS object has each key at most once; theorems that need this carry a
`Nodup` hypothesis on the keys). -/
abbrev History : Type := List (Int × ProcessedStats)

/-- `Object.keys(statsHistory).map(Number).sort((a,b)=>a-b)`: the snapshot
minutes in ascending order (stable sort of the key list). -/
def allTimes (h : History) : List Int :=
  (h.map Prod.fst).insertionSort (· ≤ ·)

/-- Combined (home+away) on-target counter of a snapshot. -/
def onTot (s : ProcessedStats) : Int := s.on_target.1 + s.on_target.2

/-- Combined (home+away) off-target counter of a snapshot. -/
def offTot (s : ProcessedStats) : Int := s.off_target.1 + s.off_target.2

/-! ## Odds-history processing (fetch effect, `Dashboard.tsx` lines 338-355) -/

/-- One raw odds tick as delivered by the feed (`OddsItem`): every field
is an optional string. -/
structure RawOddsItem where
  time_str : Option String := none
  over_od : Option String := none
  under_od : Option String := none
  home_od : Option String := none
  away_od : Option String := none
  handicap : Option String := none

/-- JS truthiness of an optional string field: `undefined` and the empty
string are falsy, every other string (including `"0"`) is truthy. -/
def truthy (o : Option String) : Bool :=
  match o with
  | some s => s != ""
  | none => false

/-- An entry of the `oddsHistory` state: `{ minute, over, under, handicap }`
after `parseInt` / `parseFloat` (numbers may be NaN). -/
structure OUHistPoint where
  minute : Option Int
  over : Option ℚ
  under : Option ℚ
  handicap : String
deriving DecidableEq

/-- An entry of the `homeOddsHistory` state: `{ minute, home, handicap }`. -/
structure HomeHistPoint where
  minute : Option Int
  home : Option ℚ
  handicap : String
deriving DecidableEq

/-- Comparator order of `.sort((a, b) => a.minute - b.minute)` on the
over/under history.  A `NaN` minute is mapped to 0: the ECMAScript sort
result for a comparator returning `NaN` is implementation-defined, and
every verified statement below only relies on this order for numeric
minutes. -/
def ouLe (a b : OUHistPoint) : Prop := a.minute.getD 0 ≤ b.minute.getD 0

instance : DecidableRel ouLe := fun a b =>
  inferInstanceAs (Decidable (a.minute.getD 0 ≤ b.minute.getD 0))

instance : IsTotal OUHistPoint ouLe := ⟨fun a b => le_total (a.minute.getD 0) (b.minute.getD 0)⟩

instance : IsTrans OUHistPoint ouLe := ⟨fun _ _ _ h1 h2 => le_trans h1 h2⟩

/-- Same comparator order for the home-odds history. -/
def homeLe (a b : HomeHistPoint) : Prop := a.minute.getD 0 ≤ b.minute.getD 0

instance : DecidableRel homeLe := fun a b =>
  inferInstanceAs (Decidable (a.minute.getD 0 ≤ b.minute.getD 0))

instance : IsTotal HomeHistPoint homeLe := ⟨fun a b => le_total (a.minute.getD 0) (b.minute.getD 0)⟩

instance : IsTrans HomeHistPoint homeLe := ⟨fun _ _ _ h1 h2 => le_trans h1 h2⟩

/-- The truthiness filter `m.time_str && m.over_od && m.under_od && m.handicap`
of the over/under branch. -/
def validOUTick (m : RawOddsItem) : Bool :=
  truthy m.time_str && truthy m.over_od && truthy m.under_od && truthy m.handicap

/-- The map step of the over/under branch: parse minute and both odds
sides, keep the handicap string. -/
def parseOUTick (m : RawOddsItem) : OUHistPoint :=
  OUHistPoint.mk (jsParseInt (m.time_str.getD "")) (jsParseFloat (m.over_od.getD ""))
    (jsParseFloat (m.under_od.getD "")) (m.handicap.getD "")

/-- The `1_3` (over/under) branch of the fetch effect: keep ticks whose
`time_str`, `over_od`, `under_od` and `handicap` are all truthy, parse
them, and sort ascending by minute.  Every surviving tick is kept — there
is no grouping by minute. -/
def processOverOdds (overMarkets : List RawOddsItem) : List OUHistPoint :=
  ((overMarkets.filter validOUTick).map parseOUTick).insertionSort ouLe

/-- The truthiness filter of the home/away branch (it also requires a
truthy `away_od`). -/
def validHomeTick (m : RawOddsItem) : Bool :=
  truthy m.time_str && truthy m.home_od && truthy m.away_od && truthy m.handicap

/-- The map step of the home/away branch: only the home odds are kept. -/
def parseHomeTick (m : RawOddsItem) : HomeHistPoint :=
  HomeHistPoint.mk (jsParseInt (m.time_str.getD "")) (jsParseFloat (m.home_od.getD ""))
    (m.handicap.getD "")

/-- The `1_2` (home/away) branch of the fetch effect. -/
def processHomeOdds (homeMarkets : List RawOddsItem) : List HomeHistPoint :=
  ((homeMarkets.filter validHomeTick).map parseHomeTick).insertionSort homeLe

/-! ## NaN-propagating JS arithmetic and comparisons -/

/-- JS subtraction on possibly-NaN numbers. -/
def jsub (a b : Option ℚ) : Option ℚ :=
  match a, b with
  | some x, some y => some (x - y)
  | _, _ => none

/-- `Math.abs` on a possibly-NaN number. -/
def jabs (a : Option ℚ) : Option ℚ := a.map (fun x => |x|)

/-- JS `<` — false whenever either side is NaN. -/
def jltQ (a b : Option ℚ) : Bool :=
  match a, b with
  | some x, some y => decide (x < y)
  | _, _ => false

/-- JS `<=` — false whenever either side is NaN. -/
def jleQ (a b : Option ℚ) : Bool :=
  match a, b with
  | some x, some y => decide (x ≤ y)
  | _, _ => false

/-- JS `>` — false whenever either side is NaN. -/
def jgtQ (a b : Option ℚ) : Bool :=
  match a, b with
  | some x, some y => decide (y < x)
  | _, _ => false

/-- JS subtraction of possibly-NaN integer minutes. -/
def jsubI (a b : Option Int) : Option Int :=
  match a, b with
  | some x, some y => some (x - y)
  | _, _ => none

/-- JS `<` of a possibly-NaN integer against a constant. -/
def jltI (a : Option Int) (c : Int) : Bool :=
  match a with
  | some x => decide (x < c)
  | none => false

/-! ## Trend Colorizer (`marketChartData` / `homeMarketChartData`,
`Dashboard.tsx` lines 189-251) -/

/-- The three trend colors. -/
inductive Color
  | red
  | yellow
  | green
deriving DecidableEq, Repr

/-- A colored chart point.  Of the spread fields the JS code carries
along, the embedding keeps exactly those consumed downstream of the
coloring step (by the cluster scan and the Pattern Detector): the minute,
the parsed handicap, the color name and the cluster flag. -/
structure ChartPoint where
  minute : Option Int
  handicap : Option ℚ
  colorName : Color
  highlight : Bool
deriving DecidableEq

/-- Coloring pass of `marketChartData`: the first point of a handicap
group is red; a later point compares its `over` odds to the immediately
preceding point of the same group — a drop below −0.02 is yellow, a move
of absolute size ≤ 0.02 is green, anything else stays red. -/
def colorizeOU : Option OUHistPoint → List OUHistPoint → List ChartPoint
  | _, [] => []
  | prev, p :: rest =>
    let cn : Color :=
      match prev with
      | none => .red
      | some q =>
        let diff := jsub p.over q.over
        if jltQ diff (some (-0.02)) then .yellow
        else if jleQ (jabs diff) (some 0.02) then .green
        else .red
    ChartPoint.mk p.minute (jsParseFloat p.handicap) cn false :: colorizeOU (some p) rest

/-- Coloring pass of `homeMarketChartData`: directionality depends on the
sign of the parsed handicap (negative: a drop below −0.02 is yellow;
otherwise: a rise above 0.02 is yellow; a move of size ≤ 0.02 is green). -/
def colorizeHome : Option HomeHistPoint → List HomeHistPoint → List ChartPoint
  | _, [] => []
  | prev, p :: rest =>
    let hv := jsParseFloat p.handicap
    let cn : Color :=
      match prev with
      | none => .red
      | some q =>
        let diff := jsub p.home q.home
        if jltQ hv (some 0) then
          if jltQ diff (some (-0.02)) then .yellow
          else if jleQ (jabs diff) (some 0.02) then .green
          else .red
        else
          if jgtQ diff (some 0.02) then .yellow
          else if jleQ (jabs diff) (some 0.02) then .green
          else .red
    ChartPoint.mk p.minute hv cn false :: colorizeHome (some p) rest

/-- Set the cluster flag of the point at index `i` (no-op out of bounds). -/
def setHl (l : List ChartPoint) (i : Nat) : List ChartPoint :=
  match l.get? i with
  | some b => l.set i { b with highlight := true }
  | none => l

/-- The run condition of the cluster scan: three consecutive points whose
minute span is under 5, whose shared color is yellow or green (checked on
the first point, which must itself be non-red), with the first point not
already flagged. -/
def clusterCond (b1 b2 b3 : ChartPoint) : Bool :=
  jltI (jsubI b3.minute b1.minute) 5 &&
  (b1.colorName == Color.yellow || b1.colorName == Color.green) &&
  b1.colorName == b2.colorName && b2.colorName == b3.colorName && !b1.highlight

/-- One iteration of the cluster scan at window start `i`. -/
def markStep (l : List ChartPoint) (i : Nat) : List ChartPoint :=
  match l.get? i, l.get? (i + 1), l.get? (i + 2) with
  | some b1, some b2, some b3 =>
    if clusterCond b1 b2 b3 then setHl (setHl (setHl l i) (i + 1)) (i + 2) else l
  | _, _, _ => l

/-- The full cluster scan `for (let i = 0; i <= pts.length - 3; i++)`. -/
def markClusters (l : List ChartPoint) : List ChartPoint :=
  (List.range (l.length - 2)).foldl markStep l

/-- Handicap keys in first-encounter order.  (A JS object enumerates
integer-like keys first; none of the verified statements depends on the
relative order of handicap groups.) -/
def groupKeys {α : Type} (hd : α → String) (l : List α) : List String :=
  l.foldl (fun acc p => if acc.contains (hd p) then acc else acc ++ [hd p]) []

/-- `marketChartData`: group the over/under history by handicap string,
color each group against its own predecessors, run the cluster scan per
group, and concatenate. -/
def marketChartData (oddsHistory : List OUHistPoint) : List ChartPoint :=
  (groupKeys (fun p => p.handicap) oddsHistory).flatMap fun k =>
    markClusters (colorizeOU none (oddsHistory.filter fun p => p.handicap == k))

/-- `homeMarketChartData`: the same pipeline over the home-odds history. -/
def homeMarketChartData (homeOddsHistory : List HomeHistPoint) : List ChartPoint :=
  (groupKeys (fun p => p.handicap) homeOddsHistory).flatMap fun k =>
    markClusters (colorizeHome none (homeOddsHistory.filter fun p => p.handicap == k))

/-! ## Pattern Detector (`runPatternDetection`, `Dashboard.tsx` lines 253-317) -/

/-- `normalize(val, maxVal)`: divide by `maxVal || 1` and clamp to [0, 1].
(The `|| 1` guard replaces a falsy `maxVal` — here always the literal
ceiling 8 or 6 — by 1.) -/
def normalize (val maxVal : ℚ) : ℚ :=
  max 0 (min 1 (val / (if maxVal = 0 then 1 else maxVal)))

/-- `getAPIMomentumAt`: two-side API total at `minute` minus the two-side
total at the nearest history minute ≤ `minute − window` (falling back to
the earliest history minute, or 0, when no such minute exists). -/
def getAPIMomentumAt (h : History) (minute window : Int) : ℚ :=
  let currentTotal :=
    calculateAPIScore (List.lookup minute h) 0 + calculateAPIScore (List.lookup minute h) 1
  let pastMinute := max 0 (minute - window)
  let pastTimes := (allTimes h).filter fun t => decide (t ≤ pastMinute)
  let pastTime :=
    match pastTimes.max? with
    | some m => m
    | none => (allTimes h).headD 0
  let pastTotal :=
    calculateAPIScore (List.lookup pastTime h) 0 + calculateAPIScore (List.lookup pastTime h) 1
  currentTotal - pastTotal

/-- `getShotClusterScore`: over history minutes in the trailing window
`[minute − window + 1, minute]` (clamped at 0), sum the raw cumulative
combined counters `on_target_total * 3.0 + off_target_total * 1.0`. -/
def getShotClusterScore (h : History) (minute window : Int) : ℚ :=
  let minT := max 0 (minute - window + 1)
  ((allTimes h).filter fun t => decide (minT ≤ t) && decide (t ≤ minute)).foldl
    (fun acc t =>
      match List.lookup t h with
      | some s => acc + ((onTot s : ℚ) * 3.0 + (offTot s : ℚ) * 1.0)
      | none => acc) 0

/-- The composition at lines 291-292: `normalize(getShotClusterScore(m, 5), 6)`. -/
def shotsNormAt (h : History) (minute : Int) : ℚ :=
  normalize (getShotClusterScore h minute 5) 6

/-- `getBubbleIntensity(chartData, minute, range)`.  The source body is

    chartData.filter(b => b.minute >= minT && ...).reduce(..., 0)

where `minT` is not declared anywhere in scope (the `range` parameter is
never used).  Evaluating the filter callback therefore throws
`ReferenceError: minT is not defined`, so the call throws for every
non-empty `chartData`; for an empty `chartData` the callback is never
invoked and the reduce over the empty array returns 0.  The thrown error
is modelled as `Except.error ()`. -/
def getBubbleIntensity (chartData : List ChartPoint) (_minute _range : Int) : Except Unit ℚ :=
  match chartData with
  | [] => Except.ok 0
  | _ :: _ => Except.error ()

/-- Discrete alert levels of a Highlight. -/
inductive HighlightLevel
  | weak
  | medium
  | strong
deriving DecidableEq, Repr

/-- The threshold ladder at lines 299-302. -/
def levelOf (score : ℚ) : Option HighlightLevel :=
  if score ≥ 0.78 then some HighlightLevel.strong
  else if score ≥ 0.62 then some HighlightLevel.medium
  else if score ≥ 0.45 then some HighlightLevel.weak
  else none

/-- A persisted highlight `{ minute, level, label }`. -/
structure Highlight where
  minute : Int
  level : HighlightLevel
  label : String
deriving DecidableEq, Repr

/-- The two persisted highlight lists (`AllHighlights` in the source). -/
structure AllHighlights where
  overUnder : List Highlight
  homeOdds : List Highlight
deriving DecidableEq, Repr

/-- JS `Math.round` (half-up). -/
def jsRound (q : ℚ) : Int := ⌊q + 1 / 2⌋

/-- The label `` `${Math.round(score * 100)}%` ``. -/
def pctLabel (score : ℚ) : String := toString (jsRound (score * 100)) ++ "%"

/-- The inputs `runPatternDetection` closes over (besides the highlight
state): the match clock fields and the three histories the derived chart
series are recomputed from. -/
structure DetectInput where
  timerTm : Option Int := none
  time : Option String := none
  statsHistory : History := []
  oddsHistory : List OUHistPoint := []
  homeOddsHistory : List HomeHistPoint := []

/-- `liveMatch.timer?.tm?.toString() || liveMatch.time || "0"`: the string
the current minute is parsed from (note `(0).toString()` is the truthy
string `"0"`, while an absent field or empty `time` falls through). -/
def currentMinuteStr (inp : DetectInput) : String :=
  match inp.timerTm with
  | some n => toString n
  | none =>
    match inp.time with
    | some t => if t = "" then "0" else t
    | none => "0"

/-- The pure part of `runPatternDetection` up to the emitted highlight:
guard on minute ≥ 10 (a NaN or zero minute also bails out), compute the
three normalized factors, dampen/boost, threshold.  `Except.error ()`
models the `ReferenceError` thrown by `getBubbleIntensity` on a non-empty
chart series; `Except.ok none` means no highlight is emitted. -/
def computeHighlight (inp : DetectInput) : Except Unit (Option Highlight) :=
  match jsParseInt (currentMinuteStr inp) with
  | none => Except.ok none
  | some m =>
    if m < 10 then Except.ok none
    else
      let apiNorm := normalize (getAPIMomentumAt inp.statsHistory m 5) 8
      match getBubbleIntensity (marketChartData inp.oddsHistory) m 3 with
      | Except.error e => Except.error e
      | Except.ok bubbleOver =>
        match getBubbleIntensity (homeMarketChartData inp.homeOddsHistory) m 3 with
        | Except.error e => Except.error e
        | Except.ok bubbleHome =>
          let bubbleNorm := normalize (bubbleOver + bubbleHome) 8
          let shotsNorm := normalize (getShotClusterScore inp.statsHistory m 5) 6
          let score0 := 0.20 * apiNorm + 0.55 * bubbleNorm + 0.25 * shotsNorm
          let score1 := if apiNorm < 0.15 then score0 * 0.4 else score0
          let score2 := if bubbleNorm > 0.6 ∧ apiNorm > 0.5 then score1 + 0.15 else score1
          let score := min score2 1
          match levelOf score with
          | none => Except.ok none
          | some lv => Except.ok (some (Highlight.mk m lv (pctLabel score)))

/-- The `setHighlights` updater at lines 306-315: insert the new highlight
into both lists unless the `overUnder` list already holds an entry with
the same minute. -/
def insertHighlight (nh : Highlight) (st : AllHighlights) : AllHighlights :=
  if st.overUnder.any (fun h => h.minute == nh.minute) then st
  else AllHighlights.mk (st.overUnder ++ [nh]) (st.homeOdds ++ [nh])

/-- Effect of one `runPatternDetection` call on the persisted highlight
state.  When the call throws (bubble intensity on a non-empty series) it
aborts before `setHighlights`, and when no level is assigned it returns
early: in both cases the state is unchanged. -/
def stepDetect (inp : DetectInput) (st : AllHighlights) : AllHighlights :=
  match computeHighlight inp with
  | Except.ok (some nh) => insertHighlight nh st
  | _ => st

/-! ## Shot-Event Deriver (the `shotEvents` effect, `Dashboard.tsx`
lines 368-386) -/

/-- Shot event kind. -/
inductive ShotType
  | on
  | off
deriving DecidableEq, Repr

/-- A reconstructed shot event `{ minute, type }`. -/
structure ShotEvent where
  minute : Int
  type : ShotType
deriving DecidableEq, Repr

/-- The loop body for one consecutive pair of minutes `prevT < t`: emit
one `on` event per unit of positive combined on-target delta, then one
`off` event per unit of positive combined off-target delta, all at the
later minute `t`.  A negative delta runs the `for` loop zero times
(`Int.toNat`), and a missing snapshot skips the pair (`continue`). -/
def shotChunk (h : History) (prevT t : Int) : List ShotEvent :=
  match List.lookup t h, List.lookup prevT h with
  | some s, some ps =>
    List.replicate (onTot s - onTot ps).toNat (ShotEvent.mk t ShotType.on) ++
      List.replicate (offTot s - offTot ps).toNat (ShotEvent.mk t ShotType.off)
  | _, _ => []

/-- The `for (let i = 1; i < allTimes.length; i++)` loop over consecutive
sorted minutes. -/
def deriveLoop (h : History) : List Int → List ShotEvent
  | p :: t :: rest => shotChunk h p t ++ deriveLoop h (t :: rest)
  | _ => []

/-- The derived shot-event list.  (With fewer than two history minutes
the effect returns before calling `setShotEvents`; the loop emits nothing
in that case anyway.) -/
def deriveShotEvents (h : History) : List ShotEvent :=
  deriveLoop h (allTimes h)

/-! ## Persistence load (`Dashboard.tsx` lines 169-175)

The load effect reads `localStorage` and feeds a non-empty stored string
straight to `JSON.parse`, with no `try`/`catch`.  `JSON.parse` is a JS
builtin; it is modelled below by an executable recursive-descent reader
of the JSON subset the dashboard itself persists (objects, arrays,
strings without escapes, plain decimal numbers, `true`/`false`/`null`).
`none` models a thrown `SyntaxError`. -/

/-- A parsed JSON value. -/
inductive Jsn
  | jnull
  | jbool (b : Bool)
  | jnum (q : ℚ)
  | jstr (s : String)
  | jarr (elems : List Jsn)
  | jobj (entries : List (String × Jsn))

/-- The double-quote character. -/
def jsonQuote : Char := Char.ofNat 34

/-- The opening-brace character. -/
def jsonLBrace : Char := Char.ofNat 123

/-- The closing-brace character. -/
def jsonRBrace : Char := Char.ofNat 125

/-- Skip JSON whitespace. -/
def skipWsJ (cs : List Char) : List Char := cs.dropWhile jsWhitespace

/-- Scan a JSON string body up to its closing quote (escape sequences are
outside the modelled subset and fail). -/
def scanStr (acc : List Char) : List Char → Option (String × List Char)
  | [] => none
  | c :: r =>
    if c == jsonQuote then some (String.mk acc.reverse, r)
    else if c == '\\' then none
    else scanStr (c :: acc) r

/-- Scan a JSON number: optional minus, integer digits, optional
fractional digits. -/
def scanNum (cs : List Char) : Option (ℚ × List Char) :=
  let sgn : ℚ := match cs with | '-' :: _ => -1 | _ => 1
  let cs1 : List Char := match cs with | '-' :: r => r | _ => cs
  let ds := cs1.takeWhile Char.isDigit
  if ds.isEmpty then none
  else
    let rest := cs1.drop ds.length
    match rest with
    | '.' :: r2 =>
      let fs := r2.takeWhile Char.isDigit
      if fs.isEmpty then none
      else
        some (sgn * ((digitsToNat ds : ℚ) + (digitsToNat fs : ℚ) / (10 : ℚ) ^ fs.length),
          r2.drop fs.length)
    | _ => some (sgn * (digitsToNat ds : ℚ), rest)

/-- Expect a literal keyword tail. -/
def expectLit (lit : List Char) (v : Jsn) (cs : List Char) : Option (Jsn × List Char) :=
  if cs.take lit.length == lit then some (v, cs.drop lit.length) else none

/-- Comma-separated array elements up to `]`, with explicit fuel. -/
def pElems (pv : List Char → Option (Jsn × List Char)) :
    Nat → List Char → Option (List Jsn × List Char)
  | 0, _ => none
  | n + 1, cs =>
    match pv cs with
    | none => none
    | some (v, r) =>
      match skipWsJ r with
      | c :: r2 =>
        if c == ',' then (pElems pv n r2).map (fun vr => (v :: vr.1, vr.2))
        else if c == ']' then some ([v], r2)
        else none
      | [] => none

/-- Comma-separated object entries up to the closing brace, with explicit
fuel. -/
def pEntries (pv : List Char → Option (Jsn × List Char)) :
    Nat → List Char → Option (List (String × Jsn) × List Char)
  | 0, _ => none
  | n + 1, cs =>
    match skipWsJ cs with
    | c :: r =>
      if c == jsonQuote then
        match scanStr [] r with
        | none => none
        | some (k, r2) =>
          match skipWsJ r2 with
          | ':' :: r3 =>
            match pv r3 with
            | none => none
            | some (v, r4) =>
              match skipWsJ r4 with
              | c2 :: r5 =>
                if c2 == ',' then (pEntries pv n r5).map (fun er => ((k, v) :: er.1, er.2))
                else if c2 == jsonRBrace then some ([(k, v)], r5)
                else none
              | [] => none
          | _ => none
      else none
    | [] => none

/-- Fueled JSON value reader. -/
def pVal : Nat → List Char → Option (Jsn × List Char)
  | 0, _ => none
  | n + 1, cs0 =>
    match skipWsJ cs0 with
    | [] => none
    | c :: r =>
      if c == jsonQuote then (scanStr [] r).map (fun sr => (Jsn.jstr sr.1, sr.2))
      else if c == jsonLBrace then
        match skipWsJ r with
        | c2 :: r2 =>
          if c2 == jsonRBrace then some (Jsn.jobj [], r2)
          else (pEntries (pVal n) n (c2 :: r2)).map (fun er => (Jsn.jobj er.1, er.2))
        | [] => none
      else if c == '[' then
        match skipWsJ r with
        | c2 :: r2 =>
          if c2 == ']' then some (Jsn.jarr [], r2)
          else (pElems (pVal n) n (c2 :: r2)).map (fun vr => (Jsn.jarr vr.1, vr.2))
        | [] => none
      else if c == 'n' then expectLit ['u', 'l', 'l'] Jsn.jnull r
      else if c == 't' then expectLit ['r', 'u', 'e'] (Jsn.jbool true) r
      else if c == 'f' then expectLit ['a', 'l', 's', 'e'] (Jsn.jbool false) r
      else (scanNum (c :: r)).map (fun qr => (Jsn.jnum qr.1, qr.2))

/-- Model of `JSON.parse` on the persisted subset: parse one value and
require only trailing whitespace; `none` models a thrown `SyntaxError`. -/
def jsonParse (s : String) : Option Jsn :=
  match pVal (s.length + 1) s.toList with
  | some (v, rest) => if skipWsJ rest = [] then some v else none
  | none => none

/-- The load of `statsHistory_<id>`:

    if (savedHistory) setStatsHistory(JSON.parse(savedHistory));
    else setStatsHistory({});

An absent (or empty, hence falsy) stored value yields the empty object;
a non-empty stored value goes straight to `JSON.parse`, whose
`SyntaxError` propagates out of the effect (`Except.error ()`). -/
def loadStatsHistory (stored : Option String) : Except Unit Jsn :=
  match stored with
  | some s =>
    if s = "" then Except.ok (Jsn.jobj [])
    else
      match jsonParse s with
      | some v => Except.ok v
      | none => Except.error ()
  | none => Except.ok (Jsn.jobj [])

/-- The default highlight state `{ overUnder: [], homeOdds: [] }` as JSON. -/
def emptyHighlightsJson : Jsn :=
  Jsn.jobj [("overUnder", Jsn.jarr []), ("homeOdds", Jsn.jarr [])]

/-- The load of `highlights_<id>`, identical in shape to the history load. -/
def loadHighlights (stored : Option String) : Except Unit Jsn :=
  match stored with
  | some s =>
    if s = "" then Except.ok emptyHighlightsJson
    else
      match jsonParse s with
      | some v => Except.ok v
      | none => Except.error ()
  | none => Except.ok emptyHighlightsJson

/-! ## Specification-side definition used for refinement comparison -/

/-- Written from the specification's words, for comparison with
`shotsNormAt` (the code): the shot-cluster score as the sum of
*per-minute deltas* — increments of the combined cumulative counters
between consecutive snapshots — weighted 3.0 / 1.0 for on/off target,
over the trailing 5-minute window, normalized by 6 and clamped. -/
def specShotClusterNorm (h : History) (minute : Int) : ℚ :=
  let minT := max 0 (minute - 5 + 1)
  let ts := allTimes h
  let raw := ((ts.zip ts.tail).filter fun pt => decide (minT ≤ pt.2) && decide (pt.2 ≤ minute)).foldl
    (fun acc pt =>
      match List.lookup pt.2 h, List.lookup pt.1 h with
      | some s, some ps =>
        acc + (((onTot s - onTot ps : Int) : ℚ) * 3.0 + ((offTot s - offTot ps : Int) : ℚ) * 1.0)
      | _, _ => acc) 0
  max 0 (min 1 (raw / 6))

/-! # Theorems -/

/-! ## C6 — Stats Parser -/

/-- The input of the claim's counterexample: `{"on_target": ["abc", "8"]}`. -/
def c6badInput : Option (List (String × List String)) := some [("on_target", ["abc", "8"])]

/-- C6 counterexample: on input `{"on_target": ["abc", "8"]}` the parser
returns `[NaN, 8]` for `on_target` — `parseInt("abc" || '0') = parseInt("abc")`
is `NaN`, not the `0` the claim's "non-numeric … yielding 0" requires. -/
theorem parseStats_nonNumeric_yields_nan :
    (parseStats c6badInput).on_target = (none, some 8) ∧
    (parseStats c6badInput).on_target ≠ (some 0, some 8) := by
  constructor
  · decide
  · decide

/-- C6 (amended): for every input mapping the Stats Parser totally
returns, per recognized key, `[0, 0]` when the key is absent or its value
is not exactly length 2, and otherwise parses both elements with
`parseInt(elem || '0')` — so an empty or missing element yields 0, but a
non-numeric element yields `NaN` (not 0).  In particular
`{"on_target": ["5", "8"]}` yields `on_target = [5, 8]` and
`{"on_target": ["abc", "8"]}` yields `on_target = [NaN, 8]`. -/
theorem parseStats_defensive :
    (∀ (stats : Option (List (String × List String))) (key : String),
      parsePairJs stats key = (some 0, some 0) ∨
      ∃ a b, (∃ m, stats = some m ∧ m.lookup key = some [a, b]) ∧
        parsePairJs stats key = (parseElem a, parseElem b)) ∧
    (∀ stats, (parseStats stats).on_target = parsePairJs stats "on_target") ∧
    (parseStats (some [("on_target", ["5", "8"])])).on_target = (some 5, some 8) ∧
    (parseStats c6badInput).on_target = (none, some 8) := by
  refine ⟨fun stats key => ?_, fun stats => rfl, by decide, by decide⟩
  cases stats with
  | none => exact Or.inl rfl
  | some m =>
    cases hm : m.lookup key with
    | none => exact Or.inl (by simp [parsePairJs, hm])
    | some l =>
      match l with
      | [] => exact Or.inl (by simp [parsePairJs, hm])
      | [a] => exact Or.inl (by simp [parsePairJs, hm])
      | [a, b] => exact Or.inr ⟨a, b, ⟨m, rfl, hm⟩, by simp [parsePairJs, hm]⟩
      | a :: b :: c :: r => exact Or.inl (by simp [parsePairJs, hm])

/-! ## C1 — Odds-History Reducer -/

/-- First tick of the claim's minute-23 example: over/under 1.80 / 2.00. -/
def c1tick1 : RawOddsItem :=
  RawOddsItem.mk (some "23") (some "1.80") (some "2.00") none none (some "2.5")

/-- Second tick of the claim's minute-23 example: over/under 1.90 / 1.92. -/
def c1tick2 : RawOddsItem :=
  RawOddsItem.mk (some "23") (some "1.90") (some "1.92") none none (some "2.5")

/-- C1 counterexample: feeding the two minute-23 ticks of the claim's own
example through the over/under branch retains *both* ticks — the output
has two points at minute 23, not the single balanced representative the
claim describes (no per-minute grouping or balanced-tick selection exists
in the code path). -/
theorem processOverOdds_keeps_duplicate_minutes :
    ((processOverOdds [c1tick1, c1tick2]).map fun p => p.minute) = [some 23, some 23] ∧
    (processOverOdds [c1tick1, c1tick2]).length = 2 := by
  constructor
  · decide
  · decide

/-- C1 (amended): the odds processing discards ticks missing the minute,
either odds side, or the handicap, parses the rest, and stable-sorts them
ascending by minute — *retaining every valid tick*, including several for
one minute: the output is a permutation of the parsed valid ticks and is
sorted by minute, and on the claim's two minute-23 ticks both points
appear, in feed order. -/
theorem processOverOdds_characterization :
    (∀ l : List RawOddsItem,
      (processOverOdds l).Perm ((l.filter validOUTick).map parseOUTick) ∧
      (processOverOdds l).Sorted ouLe) ∧
    ((processOverOdds [c1tick1, c1tick2]).map fun p => (p.minute, p.over, p.under)) =
      [(some 23, some (9/5), some 2), (some 23, some (19/10), some (48/25))] := by
  constructor
  · intro l
    exact ⟨List.perm_insertionSort ouLe _, List.sorted_insertionSort ouLe _⟩
  · have h180 : floatScan "1.80" = FloatParts.mk false 1 80 2 true := by decide
    have h200 : floatScan "2.00" = FloatParts.mk false 2 0 2 true := by decide
    have h190 : floatScan "1.90" = FloatParts.mk false 1 90 2 true := by decide
    have h192 : floatScan "1.92" = FloatParts.mk false 1 92 2 true := by decide
    have h23 : jsParseInt "23" = some 23 := by decide
    norm_num [processOverOdds, c1tick1, c1tick2, validOUTick, parseOUTick, truthy,
      jsParseFloat, h180, h200, h190, h192, h23, List.insertionSort, List.orderedInsert,
      ouLe]

/-! ## C4 — Bubble intensity (code bug) -/

/-- A chart point witnessing the non-empty case. -/
def c4point : ChartPoint := ChartPoint.mk (some 10) none Color.green false

/-- C4: `getBubbleIntensity` evaluated at the failing input — a series
holding a single point in the trailing window at minute 10 — throws
(`ReferenceError: minT is not defined`; the `range` parameter is never
used), instead of computing the claimed weighted count; only the empty
series avoids the error and yields 0. -/
theorem getBubbleIntensity_throws :
    getBubbleIntensity [c4point] 10 3 = Except.error () ∧
    getBubbleIntensity [] 10 3 = Except.ok 0 :=
  ⟨rfl, rfl⟩

/-! ## C5 — Level thresholds -/

/-- C5: the threshold ladder of the Pattern Detector — `strong` iff
score ≥ 0.78, `medium` iff 0.62 ≤ score < 0.78, `weak` iff
0.45 ≤ score < 0.62, and no level (no highlight emitted) iff
score < 0.45; in particular 0.78 maps to `strong` and 0.779999 to
`medium`. -/
theorem levelOf_thresholds :
    (∀ s : ℚ,
      (levelOf s = some HighlightLevel.strong ↔ 78 / 100 ≤ s) ∧
      (levelOf s = some HighlightLevel.medium ↔ 62 / 100 ≤ s ∧ s < 78 / 100) ∧
      (levelOf s = some HighlightLevel.weak ↔ 45 / 100 ≤ s ∧ s < 62 / 100) ∧
      (levelOf s = none ↔ s < 45 / 100)) ∧
    levelOf (78 / 100) = some HighlightLevel.strong ∧
    levelOf (779999 / 1000000) = some HighlightLevel.medium := by
  have hl : ∀ s : ℚ,
      (levelOf s = some HighlightLevel.strong ↔ 78 / 100 ≤ s) ∧
      (levelOf s = some HighlightLevel.medium ↔ 62 / 100 ≤ s ∧ s < 78 / 100) ∧
      (levelOf s = some HighlightLevel.weak ↔ 45 / 100 ≤ s ∧ s < 62 / 100) ∧
      (levelOf s = none ↔ s < 45 / 100) := by
    intro s
    unfold levelOf
    split_ifs with h1 h2 h3
    · exact ⟨⟨fun _ => by linarith, fun _ => rfl⟩,
        ⟨fun hc => by simp at hc, fun hc => (by linarith [hc.2] : False).elim⟩,
        ⟨fun hc => by simp at hc, fun hc => (by linarith [hc.2] : False).elim⟩,
        ⟨fun hc => by simp at hc, fun hc => (by linarith : False).elim⟩⟩
    · have h1' := lt_of_not_ge h1
      exact ⟨⟨fun hc => by simp at hc, fun hc => (by linarith : False).elim⟩,
        ⟨fun _ => ⟨by linarith, by linarith⟩, fun _ => rfl⟩,
        ⟨fun hc => by simp at hc, fun hc => (by linarith [hc.2] : False).elim⟩,
        ⟨fun hc => by simp at hc, fun hc => (by linarith : False).elim⟩⟩
    · have h1' := lt_of_not_ge h1
      have h2' := lt_of_not_ge h2
      exact ⟨⟨fun hc => by simp at hc, fun hc => (by linarith : False).elim⟩,
        ⟨fun hc => by simp at hc, fun hc => (by linarith [hc.1] : False).elim⟩,
        ⟨fun _ => ⟨by linarith, by linarith⟩, fun _ => rfl⟩,
        ⟨fun hc => by simp at hc, fun hc => (by linarith : False).elim⟩⟩
    · have h1' := lt_of_not_ge h1
      have h2' := lt_of_not_ge h2
      have h3' := lt_of_not_ge h3
      exact ⟨⟨fun hc => by simp at hc, fun hc => (by linarith : False).elim⟩,
        ⟨fun hc => by simp at hc, fun hc => (by linarith [hc.1] : False).elim⟩,
        ⟨fun hc => by simp at hc, fun hc => (by linarith [hc.1] : False).elim⟩,
        ⟨fun _ => by linarith, fun _ => rfl⟩⟩
  refine ⟨hl, ?_, ?_⟩
  · exact ((hl (78 / 100)).1).mpr (by norm_num)
  · exact ((hl (779999 / 1000000)).2.1).mpr (by norm_num)

/-! ## C9 — Persistence load -/

/-- C9 counterexample: a non-empty, unparseable stored value makes both
loads propagate the `JSON.parse` error instead of falling back to the
empty state. -/
theorem load_corrupted_throws :
    loadStatsHistory (some "not json") = Except.error () ∧
    loadHighlights (some "not json") = Except.error () ∧
    (Except.error () : Except Unit Jsn) ≠ Except.ok (Jsn.jobj []) :=
  ⟨rfl, rfl, fun hcontr => Except.noConfusion hcontr⟩

/-- C9 (amended): an absent stored value falls back to the empty
snapshot-history / highlight state, but a corrupted (unparseable)
non-empty stored value makes `JSON.parse` throw and the error propagates
out of the load effect — there is no fallback for corrupted state. -/
theorem load_persisted_behavior :
    loadStatsHistory none = Except.ok (Jsn.jobj []) ∧
    loadHighlights none = Except.ok emptyHighlightsJson ∧
    (∀ s : String, s ≠ "" → jsonParse s = none →
      loadStatsHistory (some s) = Except.error ()) ∧
    (∀ s : String, s ≠ "" → jsonParse s = none →
      loadHighlights (some s) = Except.error ()) := by
  refine ⟨rfl, rfl, fun s hs hp => ?_, fun s hs hp => ?_⟩
  · simp [loadStatsHistory, hs, hp]
  · simp [loadHighlights, hs, hp]

/-- C9 witness: the amended theorem applied at the concrete corrupted
stored value `"not json"`. -/
theorem load_persisted_behavior_witness :
    ("not json" ≠ "") ∧ jsonParse "not json" = none ∧
    loadStatsHistory (some "not json") = Except.error () :=
  ⟨by decide, rfl, load_persisted_behavior.2.2.1 "not json" (by decide) rfl⟩

/-! ## C3 — Trend Colorizer on the `[1.80, 1.80, 1.80]` example -/

/-- Minute-10 point of the claim's example series (value 1.80, totals
line "2.5"). -/
def c3p1 : OUHistPoint := OUHistPoint.mk (some 10) (some 1.8) (some 2.0) "2.5"

/-- Minute-11 point of the claim's example series. -/
def c3p2 : OUHistPoint := OUHistPoint.mk (some 11) (some 1.8) (some 2.0) "2.5"

/-- Minute-12 point of the claim's example series. -/
def c3p3 : OUHistPoint := OUHistPoint.mk (some 12) (some 1.8) (some 2.0) "2.5"

/-- Minute-20 point of the claim's wide-spacing variant. -/
def c3q2 : OUHistPoint := OUHistPoint.mk (some 20) (some 1.8) (some 2.0) "2.5"

/-- Minute-30 point of the claim's wide-spacing variant. -/
def c3q3 : OUHistPoint := OUHistPoint.mk (some 30) (some 1.8) (some 2.0) "2.5"

/-- C3 counterexample: on the single-line series `[1.80, 1.80, 1.80]` at
minutes `[10, 11, 12]` the colors are `[red, green, green]` as claimed,
but *no* point receives the cluster flag — the scan requires the first
point of the 3-window to be non-red, and the only 3-window here starts at
the red first point. -/
theorem marketChartData_no_cluster_on_example :
    ((marketChartData [c3p1, c3p2, c3p3]).map fun b => b.colorName) =
      [Color.red, Color.green, Color.green] ∧
    ((marketChartData [c3p1, c3p2, c3p3]).map fun b => b.highlight) ≠ [true, true, true] := by
  have h : floatScan "2.5" = FloatParts.mk false 2 5 1 true := by decide
  constructor
  · norm_num [marketChartData, groupKeys, colorizeOU, markClusters, markStep, setHl, clusterCond,
      jsub, jabs, jltQ, jleQ, jltI, jsubI, jsParseFloat, h, c3p1, c3p2, c3p3, List.range_succ]
    try simp
  · norm_num [marketChartData, groupKeys, colorizeOU, markClusters, markStep, setHl, clusterCond,
      jsub, jabs, jltQ, jleQ, jltI, jsubI, jsParseFloat, h, c3p1, c3p2, c3p3, List.range_succ]
    try simp

/-- C3 (amended): the Trend Colorizer assigns colors `[red, green, green]`
to the single-line totals series `[1.80, 1.80, 1.80]` at minutes
`[10, 11, 12]` but flags no point as a cluster (the cluster scan demands
three consecutive *same-colored non-red* points, and the run here starts
red); with the same values at minutes `[10, 20, 30]` the colors are the
same and likewise no point is flagged. -/
theorem marketChartData_example_colors :
    ((marketChartData [c3p1, c3p2, c3p3]).map fun b => (b.colorName, b.highlight)) =
      [(Color.red, false), (Color.green, false), (Color.green, false)] ∧
    ((marketChartData [c3p1, c3q2, c3q3]).map fun b => (b.colorName, b.highlight)) =
      [(Color.red, false), (Color.green, false), (Color.green, false)] := by
  have h : floatScan "2.5" = FloatParts.mk false 2 5 1 true := by decide
  constructor
  · norm_num [marketChartData, groupKeys, colorizeOU, markClusters, markStep, setHl, clusterCond,
      jsub, jabs, jltQ, jleQ, jltI, jsubI, jsParseFloat, h, c3p1, c3p2, c3p3, List.range_succ]
    try simp
  · norm_num [marketChartData, groupKeys, colorizeOU, markClusters, markStep, setHl, clusterCond,
      jsub, jabs, jltQ, jleQ, jltI, jsubI, jsParseFloat, h, c3p1, c3q2, c3q3, List.range_succ]
    try simp

/-! ## C2 — Shot-cluster score -/

/-- Folding the shot-score accumulation over a list of minutes equals the
initial value plus the sum of the per-minute contributions. -/
lemma foldl_add_match (h : History) (l : List Int) (q : ℚ) :
    l.foldl (fun acc t =>
      match List.lookup t h with
      | some s => acc + ((onTot s : ℚ) * 3.0 + (offTot s : ℚ) * 1.0)
      | none => acc) q
    = q + (l.map fun t =>
        match List.lookup t h with
        | some s => (onTot s : ℚ) * 3.0 + (offTot s : ℚ) * 1.0
        | none => 0).sum := by
  induction l generalizing q with
  | nil => simp
  | cons t tl ih =>
    simp only [List.foldl_cons, List.map_cons, List.sum_cons]
    cases hl : List.lookup t h with
    | none => simp only [hl, ih, zero_add]
    | some s =>
      simp only [hl, ih]
      ring

/-- In an association list with pairwise-distinct keys, `lookup` of a
member's key returns that member's value. -/
lemma lookup_of_nodup (h : History) (hn : (h.map Prod.fst).Nodup) {t : Int}
    {s : ProcessedStats} (hm : (t, s) ∈ h) : List.lookup t h = some s := by
  induction h with
  | nil => simp at hm
  | cons e tl ih =>
    simp only [List.map_cons, List.nodup_cons] at hn
    rcases List.mem_cons.mp hm with he | hm'
    · rw [← he]
      simp [List.lookup]
    · have ht : t ≠ e.1 := by
        intro hcontr
        exact hn.1 (hcontr ▸ List.mem_map_of_mem Prod.fst hm')
      have hbeq : (t == e.1) = false := beq_eq_false_iff_ne.mpr ht
      cases e with
      | mk k v =>
        simpa [List.lookup, hbeq] using ih hn.2 hm'

/-- Filtering a list's mapped image commutes with mapping the filtered
list. -/
lemma filter_map_fst (h : History) (p : Int → Bool) :
    (h.map Prod.fst).filter p = (h.filter fun e => p e.1).map Prod.fst := by
  induction h with
  | nil => rfl
  | cons e tl ih =>
    by_cases hp : p e.1 = true
    · simp [List.filter_cons, hp, ih]
    · simp only [Bool.not_eq_true] at hp
      simp [List.filter_cons, hp, ih]

/-- The shot-cluster score (Dashboard.tsx 274-282), in closed form for a
history with distinct keys: the sum over the history entries in the
trailing window of the raw cumulative weighted counters. -/
lemma getShotClusterScore_eq_sum (h : History) (m : Int)
    (hn : (h.map Prod.fst).Nodup) :
    getShotClusterScore h m 5 =
      ((h.filter fun e => decide (max 0 (m - 5 + 1) ≤ e.1) && decide (e.1 ≤ m)).map
        fun e => (onTot e.2 : ℚ) * 3.0 + (offTot e.2 : ℚ) * 1.0).sum := by
  unfold getShotClusterScore
  rw [foldl_add_match]
  rw [zero_add]
  have hperm : (((allTimes h).filter fun t =>
        decide (max 0 (m - 5 + 1) ≤ t) && decide (t ≤ m)).map fun t =>
          match List.lookup t h with
          | some s => (onTot s : ℚ) * 3.0 + (offTot s : ℚ) * 1.0
          | none => 0).Perm
      ((((h.map Prod.fst).filter fun t =>
        decide (max 0 (m - 5 + 1) ≤ t) && decide (t ≤ m)).map fun t =>
          match List.lookup t h with
          | some s => (onTot s : ℚ) * 3.0 + (offTot s : ℚ) * 1.0
          | none => 0)) :=
    ((List.perm_insertionSort _ _).filter _).map _
  rw [hperm.sum_eq, filter_map_fst, List.map_map]
  refine congrArg List.sum (List.map_congr_left ?_)
  intro e he
  have hmem : e ∈ h := (List.mem_filter.mp he).1
  have hlk : List.lookup e.1 h = some e.2 := lookup_of_nodup h hn (by simpa using hmem)
  simp [Function.comp, hlk]

/-- The snapshot of the C2 counterexample: cumulative on-target total 2. -/
def c2stats : ProcessedStats := { on_target := (2, 0) }

/-- The C2 counterexample history: the same cumulative totals at minutes
10 and 11 (so all per-minute deltas are zero). -/
def c2hist : History := [(10, c2stats), (11, c2stats)]

/-- C2 counterexample: on a history whose cumulative combined on-target
total is 2 at both minute 10 and minute 11 (all deltas zero), the code's
normalized shot-cluster score at minute 11 is 1 — it sums the raw
cumulative counters (6 + 6 = 12, then 12/6 clamped) — while the claim's
delta-based score is 0. -/
theorem shotScore_cumulative_counterexample :
    shotsNormAt c2hist 11 = 1 ∧ specShotClusterNorm c2hist 11 = 0 ∧ (1 : ℚ) ≠ 0 := by
  have hat : allTimes c2hist = [10, 11] := by decide
  have hl10 : List.lookup (10 : Int) c2hist = some c2stats := by decide
  have hl11 : List.lookup (11 : Int) c2hist = some c2stats := by decide
  have honT : onTot c2stats = 2 := by decide
  have hoffT : offTot c2stats = 0 := by decide
  refine ⟨?_, ?_, by norm_num⟩
  · have hsc : getShotClusterScore c2hist 11 5 = 12 := by
      unfold getShotClusterScore
      rw [hat]
      norm_num [hl10, hl11, honT, hoffT]
    unfold shotsNormAt normalize
    rw [hsc]
    norm_num
  · unfold specShotClusterNorm
    rw [hat]
    norm_num [hl10, hl11, honT, hoffT]

/-- C2 (amended): for every snapshot history with distinct minutes and
every current minute, the shot-cluster score over the trailing 5-minute
window equals the sum of the *raw cumulative* combined counters —
on-target total × 3.0 plus off-target total × 1.0 of every snapshot in
the window, not the per-minute increments — divided by the ceiling 6 and
clamped to [0, 1]. -/
theorem shotsNorm_characterization :
    ∀ (h : History) (m : Int), (h.map Prod.fst).Nodup →
      shotsNormAt h m =
        max 0 (min 1
          (((h.filter fun e => decide (max 0 (m - 5 + 1) ≤ e.1) && decide (e.1 ≤ m)).map
            fun e => (onTot e.2 : ℚ) * 3.0 + (offTot e.2 : ℚ) * 1.0).sum / 6)) := by
  intro h m hn
  unfold shotsNormAt normalize
  rw [getShotClusterScore_eq_sum h m hn]
  norm_num

/-- C2 witness: the amended characterization applied to the concrete
two-snapshot history at current minute 11. -/
theorem shotsNorm_characterization_witness :
    ((c2hist.map Prod.fst).Nodup) ∧
    shotsNormAt c2hist 11 =
      max 0 (min 1
        (((c2hist.filter fun e => decide (max 0 (11 - 5 + 1 : Int) ≤ e.1) && decide (e.1 ≤ 11)).map
          fun e => (onTot e.2 : ℚ) * 3.0 + (offTot e.2 : ℚ) * 1.0).sum / 6)) :=
  ⟨by decide, shotsNorm_characterization c2hist 11 (by decide)⟩

/-! ## C7 / C10 — highlight-state invariants -/

/-- Inserting the same highlight twice is the same as inserting it once:
the second insert finds the minute in the `overUnder` list and returns
the state unchanged. -/
lemma insertHighlight_idem (nh : Highlight) (st : AllHighlights) :
    insertHighlight nh (insertHighlight nh st) = insertHighlight nh st := by
  unfold insertHighlight
  by_cases hc : st.overUnder.any (fun h => h.minute == nh.minute) = true
  · simp [hc]
  · simp only [Bool.not_eq_true] at hc
    simp [hc, List.any_append]

/-- The state invariant maintained by the detector: the two lists are
equal and the `overUnder` minutes are pairwise distinct. -/
def HlInv (st : AllHighlights) : Prop :=
  st.overUnder = st.homeOdds ∧ (st.overUnder.map fun h => h.minute).Nodup

/-- `insertHighlight` preserves the state invariant. -/
lemma insertHighlight_inv {st : AllHighlights} (nh : Highlight) (hinv : HlInv st) :
    HlInv (insertHighlight nh st) := by
  obtain ⟨heq, hnd⟩ := hinv
  by_cases hc : st.overUnder.any (fun h => h.minute == nh.minute) = true
  · have hstep : insertHighlight nh st = st := by
      unfold insertHighlight
      simp [hc]
    rw [hstep]
    exact ⟨heq, hnd⟩
  · simp only [Bool.not_eq_true] at hc
    have hnotmem : nh.minute ∉ st.overUnder.map fun h => h.minute := by
      intro hmem
      obtain ⟨x, hx, hxm⟩ := List.mem_map.mp hmem
      have := List.any_eq_false.mp hc x hx
      simp [hxm] at this
    have hstep : insertHighlight nh st =
        AllHighlights.mk (st.overUnder ++ [nh]) (st.homeOdds ++ [nh]) := by
      unfold insertHighlight
      simp [hc]
    rw [hstep]
    constructor
    · simp [heq]
    · simp only [List.map_append, List.map_cons, List.map_nil]
      exact List.Nodup.append hnd (List.nodup_singleton nh.minute)
        (by simpa [List.disjoint_singleton] using hnotmem)

/-- Every detection step either leaves the highlight state unchanged or
appends one identical highlight to both lists. -/
lemma stepDetect_cases (inp : DetectInput) (st : AllHighlights) :
    stepDetect inp st = st ∨
    ∃ nh, stepDetect inp st = AllHighlights.mk (st.overUnder ++ [nh]) (st.homeOdds ++ [nh]) := by
  unfold stepDetect
  cases hc : computeHighlight inp with
  | error e => exact Or.inl rfl
  | ok o =>
    cases o with
    | none => exact Or.inl rfl
    | some nh =>
      unfold insertHighlight
      by_cases hany : st.overUnder.any (fun h => h.minute == nh.minute) = true
      · exact Or.inl (by simp [hany])
      · simp only [Bool.not_eq_true] at hany
        exact Or.inr ⟨nh, by simp [hany]⟩

/-- A list whose image under `f` has no duplicates holds at most one
element with any given image. -/
lemma countP_le_one_of_nodup {α β : Type} [DecidableEq β] (f : α → β) (l : List α)
    (hl : (l.map f).Nodup) (b : β) : (l.countP fun x => decide (f x = b)) ≤ 1 := by
  induction l with
  | nil => simp
  | cons a tl ih =>
    simp only [List.map_cons, List.nodup_cons] at hl
    rw [List.countP_cons]
    by_cases hfa : f a = b
    · have hz : tl.countP (fun x => decide (f x = b)) = 0 := by
        rw [List.countP_eq_zero]
        intro x hx
        simp only [decide_eq_true_eq]
        intro hfx
        exact hl.1 (hfa ▸ hfx ▸ List.mem_map_of_mem f hx)
      simp [hz, hfa]
    · simp [hfa, ih hl.2]

/-- C7: running pattern detection a second time on identical, unchanged
inputs leaves the persisted highlight state exactly as after the first
run, and (for any state satisfying the maintained invariant) each list
holds at most one highlight per minute.  When the detection call throws
(non-empty chart series) both runs leave the state untouched; when it
completes, the second insert is deduplicated by minute. -/
theorem detection_idempotent :
    ∀ (inp : DetectInput) (st : AllHighlights), HlInv st →
      stepDetect inp (stepDetect inp st) = stepDetect inp st ∧
      (∀ m : Int,
        ((stepDetect inp st).overUnder.countP fun hh => decide (hh.minute = m)) ≤ 1 ∧
        ((stepDetect inp st).homeOdds.countP fun hh => decide (hh.minute = m)) ≤ 1) := by
  intro inp st hinv
  have hinv' : HlInv (stepDetect inp st) := by
    unfold stepDetect
    cases hc : computeHighlight inp with
    | error e => exact hinv
    | ok o =>
      cases o with
      | none => exact hinv
      | some nh => exact insertHighlight_inv nh hinv
  refine ⟨?_, fun m => ?_⟩
  · cases hc : computeHighlight inp with
    | error e => simp [stepDetect, hc]
    | ok o =>
      cases o with
      | none => simp [stepDetect, hc]
      | some nh => simp [stepDetect, hc, insertHighlight_idem]
  · refine ⟨countP_le_one_of_nodup _ _ hinv'.2 m, ?_⟩
    rw [← hinv'.1]
    exact countP_le_one_of_nodup _ _ hinv'.2 m

/-- The snapshot driving the concrete detection witness: 3 on-target
shots at minute 20 (API momentum 12 ≥ ceiling 8, shot score 9 ≥ 6). -/
def wStats20 : ProcessedStats := { on_target := (3, 0) }

/-- A concrete detection input that emits a highlight: minute 20, a
baseline zero snapshot at minute 5, the shot burst at minute 20, and
empty market series (so the bubble computation does not throw). -/
def wInput : DetectInput :=
  { timerTm := some 20, statsHistory := [(5, ({} : ProcessedStats)), (20, wStats20)] }

/-- C7 witness: the idempotence theorem applied to the empty state and
the concrete minute-20 input. -/
theorem detection_idempotent_witness :
    HlInv (AllHighlights.mk [] []) ∧
    stepDetect wInput (stepDetect wInput (AllHighlights.mk [] [])) =
      stepDetect wInput (AllHighlights.mk [] []) ∧
    ((stepDetect wInput (AllHighlights.mk [] [])).overUnder.countP fun hh =>
      decide (hh.minute = 20)) ≤ 1 := by
  have hEmptyInv : HlInv (AllHighlights.mk [] []) := ⟨rfl, by simp⟩
  exact ⟨hEmptyInv, (detection_idempotent wInput _ hEmptyInv).1,
    ((detection_idempotent wInput _ hEmptyInv).2 20).1⟩

/-- Highlight states reachable by the core: the empty state (a fresh
match, or the fallback of the load effect) and detection steps.  A
persistence load replays a state previously saved verbatim from a
reachable state, so it introduces no new states. -/
inductive ReachableHl : AllHighlights → Prop
  | empty : ReachableHl (AllHighlights.mk [] [])
  | detect (inp : DetectInput) {st : AllHighlights} :
      ReachableHl st → ReachableHl (stepDetect inp st)

/-- C10: every core operation either leaves the highlight state unchanged
or appends one identical `Highlight` to both lists, and consequently the
two persisted lists of every state reachable from the empty state are
element-for-element equal — even though the duplicate-minute guard only
consults the `overUnder` list. -/
theorem highlight_lists_in_sync :
    (∀ (inp : DetectInput) (st : AllHighlights),
      stepDetect inp st = st ∨
      ∃ nh, stepDetect inp st = AllHighlights.mk (st.overUnder ++ [nh]) (st.homeOdds ++ [nh])) ∧
    (∀ st, ReachableHl st → st.overUnder = st.homeOdds) := by
  refine ⟨stepDetect_cases, fun st hr => ?_⟩
  induction hr with
  | empty => rfl
  | detect inp h ih =>
    rcases stepDetect_cases inp _ with heq | ⟨nh, heq⟩
    · rw [heq]
      exact ih
    · rw [heq]
      simp [ih]

/-- C10 witness: the sync theorem applied to the state reached by one
concrete detection step from the empty state. -/
theorem highlight_lists_in_sync_witness :
    (stepDetect wInput (AllHighlights.mk [] [])).overUnder =
      (stepDetect wInput (AllHighlights.mk [] [])).homeOdds :=
  highlight_lists_in_sync.2 _ (ReachableHl.detect wInput ReachableHl.empty)

/-! ## C8 — Shot-Event Deriver -/

/-- Every event the deriver loop emits carries a minute from the tail of
the minute list (events are always attributed to the *later* minute of a
pair). -/
lemma mem_deriveLoop_minute (h : History) :
    ∀ (l : List Int) (e : ShotEvent), e ∈ deriveLoop h l → e.minute ∈ l.tail := by
  intro l
  induction l with
  | nil => intro e he; simp [deriveLoop] at he
  | cons p tl ih =>
    cases tl with
    | nil => intro e he; simp [deriveLoop] at he
    | cons t rest =>
      intro e he
      rcases List.mem_append.mp he with hch | hrec
      · have hmt : e.minute = t := by
          unfold shotChunk at hch
          cases hlk : List.lookup t h with
          | none => simp only [hlk] at hch; simp at hch
          | some s =>
            cases hlk2 : List.lookup p h with
            | none => simp only [hlk, hlk2] at hch; simp at hch
            | some ps =>
              simp only [hlk, hlk2] at hch
              rcases List.mem_append.mp hch with h1 | h1 <;>
                · have := List.eq_of_mem_replicate h1
                  rw [this]
        rw [List.tail_cons, hmt]
        exact List.mem_cons_self t rest
      · exact List.mem_cons_of_mem t (ih e hrec)

/-- The event count of one pair's chunk, for the pair's own later minute:
exactly the clamped-at-zero delta of the matching counter. -/
lemma countP_shotChunk_ty (h : History) (p t : Int) (s ps : ProcessedStats)
    (hs : List.lookup t h = some s) (hps : List.lookup p h = some ps) :
    ((shotChunk h p t).countP fun e =>
        decide (e.minute = t) && decide (e.type = ShotType.on)) = (onTot s - onTot ps).toNat ∧
    ((shotChunk h p t).countP fun e =>
        decide (e.minute = t) && decide (e.type = ShotType.off)) = (offTot s - offTot ps).toNat := by
  unfold shotChunk
  rw [hs, hps]
  constructor <;> simp [List.countP_append, List.countP_replicate]

/-- A pair's chunk contributes nothing to the count of a different
minute. -/
lemma countP_shotChunk_ne (h : History) (p t x : Int) (hne : t ≠ x) (pr : ShotEvent → Bool)
    (hpr : ∀ e, pr e = true → e.minute = x) :
    (shotChunk h p t).countP pr = 0 := by
  rw [List.countP_eq_zero]
  intro e he hcontr
  have hmx := hpr e hcontr
  have hmt : e.minute = t := by
    unfold shotChunk at he
    cases hlk : List.lookup t h with
    | none => simp only [hlk] at he; simp at he
    | some s =>
      cases hlk2 : List.lookup p h with
      | none => simp only [hlk, hlk2] at he; simp at he
      | some ps =>
        simp only [hlk, hlk2] at he
        rcases List.mem_append.mp he with h1 | h1 <;>
          · have := List.eq_of_mem_replicate h1
            rw [this]
  exact hne (hmt ▸ hmx)

/-- Counting events of a fixed later-minute `t` in the whole loop output
reduces to the chunk of the unique consecutive pair `(p, t)`: all chunks
before the pair concern earlier later-minutes and all chunks after it
concern strictly later ones. -/
lemma countP_deriveLoop_append (h : History) (pr : ShotEvent → Bool) :
    ∀ (l1 : List Int) (p t : Int) (l2 : List Int),
      (l1 ++ p :: t :: l2).Pairwise (· < ·) →
      (∀ e, pr e = true → e.minute = t) →
      (deriveLoop h (l1 ++ p :: t :: l2)).countP pr = (shotChunk h p t).countP pr := by
  intro l1
  induction l1 with
  | nil =>
    intro p t l2 hpw hpr
    rw [List.nil_append]
    have hloop : deriveLoop h (p :: t :: l2) = shotChunk h p t ++ deriveLoop h (t :: l2) := rfl
    rw [hloop, List.countP_append]
    have hrec0 : (deriveLoop h (t :: l2)).countP pr = 0 := by
      rw [List.countP_eq_zero]
      intro e he hcontr
      have hmx := hpr e hcontr
      have hmem := mem_deriveLoop_minute h (t :: l2) e he
      rw [List.tail_cons, hmx] at hmem
      have hpw' := (List.pairwise_cons.mp (List.nil_append (p :: t :: l2) ▸ hpw)).2
      have hlt := (List.pairwise_cons.mp hpw').1 t hmem
      exact lt_irrefl t hlt
    rw [hrec0, add_zero]
  | cons a l1 ih =>
    intro p t l2 hpw hpr
    obtain ⟨b, r, hbr⟩ : ∃ b r, l1 ++ p :: t :: l2 = b :: r := by
      cases l1 with
      | nil => exact ⟨p, t :: l2, rfl⟩
      | cons c l1x => exact ⟨c, l1x ++ p :: t :: l2, rfl⟩
    have hstep : deriveLoop h ((a :: l1) ++ p :: t :: l2) =
        shotChunk h a b ++ deriveLoop h (l1 ++ p :: t :: l2) := by
      rw [List.cons_append, hbr]
      rfl
    rw [hstep, List.countP_append]
    have hpwtail : (l1 ++ p :: t :: l2).Pairwise (· < ·) :=
      (List.pairwise_cons.mp hpw).2
    have htmem : t ∈ r := by
      cases l1 with
      | nil =>
        have : (p :: t :: l2) = b :: r := hbr
        cases this
        exact List.mem_cons_self t l2
      | cons c l1x =>
        have : (c :: (l1x ++ p :: t :: l2)) = b :: r := hbr
        cases this
        exact List.mem_append_right l1x (List.mem_cons_of_mem p (List.mem_cons_self t l2))
    have hbt : b < t := by
      have := List.pairwise_cons.mp (hbr ▸ hpwtail)
      exact this.1 t htmem
    have hch0 : (shotChunk h a b).countP pr = 0 :=
      countP_shotChunk_ne h a b t (ne_of_lt hbt) pr hpr
    rw [hch0, zero_add]
    exact ih p t l2 hpwtail hpr

/-- C8: for a history with distinct minutes and any consecutive pair
`p, t` of its ascending minute sequence, the Shot-Event Deriver emits at
the later minute `t` exactly `max(delta, 0)` events of each kind, where
`delta` is the difference of the combined cumulative on-target
(respectively off-target) counters — a negative delta (counter
regression) produces zero events and no error. -/
theorem shotEvents_per_delta :
    ∀ (h : History), (h.map Prod.fst).Nodup →
    ∀ (l1 : List Int) (p t : Int) (l2 : List Int),
      allTimes h = l1 ++ p :: t :: l2 →
    ∀ (s ps : ProcessedStats),
      List.lookup t h = some s → List.lookup p h = some ps →
      ((deriveShotEvents h).countP fun e =>
          decide (e.minute = t) && decide (e.type = ShotType.on)) = (onTot s - onTot ps).toNat ∧
      ((deriveShotEvents h).countP fun e =>
          decide (e.minute = t) && decide (e.type = ShotType.off)) = (offTot s - offTot ps).toNat := by
  intro h hnd l1 p t l2 hdec s ps hs hps
  have hsorted : (allTimes h).Sorted (· ≤ ·) :=
    List.sorted_insertionSort (· ≤ ·) (h.map Prod.fst)
  have hnodup : (allTimes h).Nodup :=
    (List.perm_insertionSort (fun a b : Int => a ≤ b) (h.map Prod.fst)).symm.nodup hnd
  have hpw : (allTimes h).Pairwise (· < ·) := hsorted.lt_of_le hnodup
  rw [hdec] at hpw
  have honPred : ∀ e : ShotEvent,
      (decide (e.minute = t) && decide (e.type = ShotType.on)) = true → e.minute = t := by
    intro e he
    simp only [Bool.and_eq_true, decide_eq_true_eq] at he
    exact he.1
  have hoffPred : ∀ e : ShotEvent,
      (decide (e.minute = t) && decide (e.type = ShotType.off)) = true → e.minute = t := by
    intro e he
    simp only [Bool.and_eq_true, decide_eq_true_eq] at he
    exact he.1
  constructor
  · rw [deriveShotEvents, hdec, countP_deriveLoop_append h _ l1 p t l2 hpw honPred]
    exact (countP_shotChunk_ty h p t s ps hs hps).1
  · rw [deriveShotEvents, hdec, countP_deriveLoop_append h _ l1 p t l2 hpw hoffPred]
    exact (countP_shotChunk_ty h p t s ps hs hps).2

/-- Snapshot at minute 10 of the claim's example: cumulative on-target 2. -/
def c8s10 : ProcessedStats := { on_target := (2, 0) }

/-- Snapshot at minute 11: cumulative on-target 5. -/
def c8s11 : ProcessedStats := { on_target := (5, 0) }

/-- Snapshot at minute 12: a counter regression back to 3. -/
def c8s12 : ProcessedStats := { on_target := (3, 0) }

/-- The claim's example history. -/
def c8hist : History := [(10, c8s10), (11, c8s11), (12, c8s12)]

/-- C8 witness: on the example history, the theorem yields three `on`
events at minute 11 (delta 5 − 2 = 3) and zero events at minute 12
(regression 3 − 5, clamped to zero). -/
theorem shotEvents_per_delta_witness :
    ((c8hist.map Prod.fst).Nodup) ∧
    allTimes c8hist = [] ++ (10 : Int) :: 11 :: [12] ∧
    allTimes c8hist = [(10 : Int)] ++ (11 : Int) :: 12 :: [] ∧
    ((deriveShotEvents c8hist).countP fun e =>
        decide (e.minute = 11) && decide (e.type = ShotType.on)) = 3 ∧
    ((deriveShotEvents c8hist).countP fun e =>
        decide (e.minute = 12) && decide (e.type = ShotType.on)) = 0 := by
  refine ⟨by decide, by decide, by decide, ?_, ?_⟩
  · exact (shotEvents_per_delta c8hist (by decide) [] 10 11 [12] (by decide)
      c8s11 c8s10 (by decide) (by decide)).1
  · exact (shotEvents_per_delta c8hist (by decide) [10] 11 12 [] (by decide)
      c8s12 c8s11 (by decide) (by decide)).1

end ProFootball
